import Mathlib

/-!
Shallow embedding of the `log` package of goccmack/goutil (src/log/interface.go,
src/log/config.go, src/log/log.go).

Conventions of the embedding:
* Go `type Priority int` is `Int`; the five declared constants are `EXIT .. DEBUG`.
* Go `(value, error)` returns keep the pair shape: the error is `Option String`
  (`none` = Go `nil`).
* The logger actor's mutable state is passed explicitly; its side effects
  (writes forwarded to the FileSet actor, FileSet requests) are returned as an
  explicit event list.  Wall-clock timestamps and `fmt.Sprintf` rendering of
  variadic arguments are not representable; a write event therefore carries the
  fields of the message that was admitted, which is what the admission and
  ordering claims are about.
* `os.Executable()`-derived `fileName` is an environment input, passed as a
  parameter.
-/

/-- Go `type Priority int` (src/log/interface.go). -/
abbrev Priority := Int

def EXIT : Priority := 0
def PANIC : Priority := 1
def WARNING : Priority := 2
def INFO : Priority := 3
def DEBUG : Priority := 4

/-- Go method `Priority.String` (src/log/interface.go).  The Go method panics
on an undeclared value; that branch is `none`. -/
def priorityString (p : Priority) : Option String :=
  if p = EXIT then some "EXIT"
  else if p = PANIC then some "PANIC"
  else if p = WARNING then some "WARNING"
  else if p = INFO then some "INFO"
  else if p = DEBUG then some "DEBUG"
  else none

/-- Go `strings.ToUpper` restricted to the ASCII range used by the priority
names (`Char.toUpper` maps exactly the ASCII letters, as Go does on them). -/
def goToUpper (s : String) : String := String.mk (s.toList.map Char.toUpper)

/-- Go `ToPriority` (src/log/interface.go): switch on `strings.ToUpper(str)`;
the default branch returns `DEBUG` together with a non-nil error. -/
def ToPriority (str : String) : Priority × Option String :=
  if goToUpper str = "EXIT" then (EXIT, none)
  else if goToUpper str = "PANIC" then (PANIC, none)
  else if goToUpper str = "WARNING" then (WARNING, none)
  else if goToUpper str = "INFO" then (INFO, none)
  else if goToUpper str = "DEBUG" then (DEBUG, none)
  else (DEBUG, some (String.append "Invalid priority string " str))

/-- Go `Config` (src/log/config.go). -/
structure Config where
  RootDir : String
  FileName : String
  NumFiles : Int
  FileNumBytes : Int
  Priority : Priority
  SuppressedFiles : String
deriving DecidableEq, Repr

/-- Go `Config.Clone` (src/log/config.go): a new struct built field by field. -/
def Config.Clone (c : Config) : Config :=
  { RootDir := c.RootDir
    FileName := c.FileName
    NumFiles := c.NumFiles
    FileNumBytes := c.FileNumBytes
    Priority := c.Priority
    SuppressedFiles := c.SuppressedFiles }

/-- Go `Config.Equal` (src/log/config.go): compares `RootDir`, `FileName`,
`NumFiles`, `FileNumBytes` and `Priority` — and nothing else. -/
def Config.Equal (c c1 : Config) : Bool :=
  if c.RootDir != c1.RootDir ||
     c.FileName != c1.FileName ||
     c.NumFiles != c1.NumFiles ||
     c.FileNumBytes != c1.FileNumBytes ||
     c.Priority != c1.Priority then
    false
  else
    true

def DefaultLogRootDir : String := "/usr/local/var/log"
def DefaultNumFiles : Int := 3
def DefaultLogFileNumBytes : Int := 1000000
def DefaultPriority : Priority := INFO
def DefaultSuppressedFiles : String := ""

/-- Go `DefaultConfig` (src/log/config.go); `fileName` is the executable name. -/
def DefaultConfig (fileName : String) : Config :=
  { RootDir := DefaultLogRootDir
    FileName := fileName
    NumFiles := DefaultNumFiles
    FileNumBytes := DefaultLogFileNumBytes
    Priority := DefaultPriority
    SuppressedFiles := DefaultSuppressedFiles }

/-- Go `jsonConfig` (src/log/config.go): every field optional; for the string
fields Go's zero value `""` plays the role of absence, as in the source. -/
structure JsonConfig where
  RootDir : String
  NumFiles : Option Int
  FileNumBytes : Option Int
  Priority : String
  SuppressedFiles : String
deriving DecidableEq, Repr

/-- Go `jsonToConfig` (src/log/config.go).  The second component is the list of
diagnostics the function prints to stderr (only the invalid-priority branch
prints one). -/
def jsonToConfig (fileName : String) (jc : JsonConfig) : Config × List String :=
  let rootDir := if jc.RootDir = "" then DefaultLogRootDir else jc.RootDir
  let numFiles := match jc.NumFiles with
    | none => DefaultNumFiles
    | some n => n
  let fileNumBytes := match jc.FileNumBytes with
    | none => DefaultLogFileNumBytes
    | some b => b
  let pd : Priority × List String :=
    if jc.Priority = "" then (DefaultPriority, [])
    else
      match ToPriority jc.Priority with
      | (p, none) => (p, [])
      | (_, some _) =>
          (DefaultPriority, [String.append "Invalid priority string: " jc.Priority])
  ({ RootDir := rootDir
     FileName := fileName
     NumFiles := numFiles
     FileNumBytes := fileNumBytes
     Priority := pd.1
     SuppressedFiles := jc.SuppressedFiles }, pd.2)

/-- State of the configuration source as `readConfigFile` finds it: no file with
the config suffix, a file that cannot be read, a file whose JSON does not
parse, or a parsed document. -/
inductive ConfigSource where
  | missing
  | unreadable (errMsg : String)
  | malformed (errMsg : String)
  | parsed (jc : JsonConfig)
deriving DecidableEq, Repr

/-- Go `readConfigFile` (src/log/config.go).  Second component: the stderr
diagnostics.  The unreadable-file warning is printed only when `warnIfNoCfg`
holds; the missing-file and parse-error diagnostics are unconditional. -/
def readConfigFile (fileName : String) (warnIfNoCfg : Bool) (src : ConfigSource) :
    Config × List String :=
  match src with
  | ConfigSource.missing =>
      (DefaultConfig fileName, ["No logging config file found. Using defaults"])
  | ConfigSource.unreadable e =>
      if warnIfNoCfg then
        (DefaultConfig fileName, [String.append "Warning reading config: " e])
      else
        (DefaultConfig fileName, [])
  | ConfigSource.malformed e =>
      (DefaultConfig fileName, [String.append "Error parsing config: " e])
  | ConfigSource.parsed jc => jsonToConfig fileName jc

/-- A queued log entry, Go `logMsg` (src/log/log.go).  `format` stands for the
message text (the variadic `a` arguments are absorbed into it, see header). -/
structure LogMsg where
  file : String
  line : Int
  priority : Priority
  format : String
deriving DecidableEq, Repr

/-- Go `strings.Split` for a single-character separator (the source only splits
on `"."`, `","` and `"/"`), on the character list: the groups of characters
between occurrences of the separator.  `Split("", sep) = [""]` as in Go. -/
def splitChars (sep : Char) : List Char → List (List Char)
  | [] => [[]]
  | c :: cs =>
      let r := splitChars sep cs
      if c = sep then
        [] :: r
      else
        match r with
        | [] => [[c]]
        | g :: gs => (c :: g) :: gs

/-- Go `strings.Split s (String.singleton sep)` as a list of strings. -/
def goSplit (s : String) (sep : Char) : List String :=
  (splitChars sep s.toList).map (fun l => String.mk l)

/-- Go `strings.Join` with the given separator. -/
def goJoin (sep : String) : List String → String
  | [] => ""
  | [s] => s
  | s :: rest => s ++ sep ++ goJoin sep rest

/-- Go `path.Split(file)` second component: the part after the final slash. -/
def goPathSplitFile (p : String) : String :=
  (goSplit p '/').getLastD ""

/-- The file-name stem computed inside Go `logger.isSuppressed`:
`strings.Join(strings.Split(file, ".")[:len-1], ".")`. -/
def stemOf (file : String) : String :=
  let fns := goSplit file '.'
  goJoin "." (fns.take (fns.length - 1))

/-- Go `strings.Contains s sub`: `sub` occurs as a contiguous substring of `s`. -/
def goContains (s sub : String) : Bool :=
  s.toList.tails.any (fun t => sub.toList.isPrefixOf t)

/-- Go `logger.isSuppressed` (src/log/log.go): substring test of the stem
against the comma-separated `SuppressedFiles` string. -/
def isSuppressed (cfg : Config) (file : String) (priority : Priority) : Bool :=
  if priority < DEBUG then false
  else if cfg.SuppressedFiles = "" then false
  else goContains cfg.SuppressedFiles (stemOf file)

/-- The record an admitted message produces on the FileSet actor (the fields
`logger.logMsg` formats into the output line). -/
structure WriteRec where
  priority : Priority
  fname : String
  line : Int
  msg : String
  stackTrace : String
deriving DecidableEq, Repr

/-- Go `logger.logMsg` (src/log/log.go): strip the directory, then write iff
`priority <= l.cfg.Priority && !l.isSuppressed(fname, priority)`; otherwise the
entry is dropped (no record, no error). -/
def logMsg (cfg : Config) (m : LogMsg) (stackTrace : String) : Option WriteRec :=
  let fname := goPathSplitFile m.file
  if decide (m.priority ≤ cfg.Priority) && !(isSuppressed cfg fname m.priority) then
    some { priority := m.priority, fname := fname, line := m.line,
           msg := m.format, stackTrace := stackTrace }
  else
    none

/-- Go `logger.flushLogMsgs` (src/log/log.go): drain the queue front to back,
running each entry through `logMsg` with an empty stack trace. -/
def flushLogMsgs (cfg : Config) : List LogMsg → List WriteRec
  | [] => []
  | m :: q =>
      match logMsg cfg m "" with
      | some w => w :: flushLogMsgs cfg q
      | none => flushLogMsgs cfg q

/-- Observable actions of the logger actor, in program order: a line written to
the FileSet, the configuration record `logConfig` writes, a
`FileSet.SetConfig` request, a `FileSet.Close` request. -/
inductive Event where
  | write (w : WriteRec)
  | configRecord (c : Config)
  | fsSetConfig (numFiles numBytes : Int)
  | fsClose
deriving DecidableEq, Repr

/-- The write records among a list of events, in order. -/
def writesOf (evs : List Event) : List WriteRec :=
  evs.filterMap (fun e =>
    match e with
    | Event.write w => some w
    | _ => none)

/-- Go `logger.close` (src/log/log.go): `close(logChan)` (no further entries
can be queued), drain the queue via `flushLogMsgs`, then `l.wtr.Close()`. -/
def loggerClose (cfg : Config) (q : List LogMsg) : List Event :=
  (flushLogMsgs cfg q).map Event.write ++ [Event.fsClose]

/-- Go `configMsg` (src/log/log.go), the payload of `SetConfig`. -/
structure ConfigMsg where
  maxFiles : Int
  maxBytes : Int
  priority : Priority
deriving DecidableEq, Repr

/-- The `case cm := <-setConfigChan` branch of `logger.run` (src/log/log.go):
assign `NumFiles`, `FileNumBytes`, `Priority`, then `flushLogMsgs` (under the
just-updated configuration), then `wtr.SetConfig`, then `logConfig`. -/
def handleSetConfig (cfg : Config) (q : List LogMsg) (cm : ConfigMsg) :
    Config × List Event :=
  let cfg1 := { cfg with NumFiles := cm.maxFiles, FileNumBytes := cm.maxBytes,
                         Priority := cm.priority }
  (cfg1,
   (flushLogMsgs cfg1 q).map Event.write ++
     [Event.fsSetConfig cm.maxFiles cm.maxBytes, Event.configRecord cfg1])

/-- The `case <-refreshConfig.C` branch of `logger.run` (src/log/log.go):
adopt the freshly read configuration iff `!l.cfg.Equal(newCfg)`. -/
def handleRefreshConfig (cfg newCfg : Config) : Config × List Event :=
  if !(Config.Equal cfg newCfg) then
    (newCfg,
     [Event.fsSetConfig newCfg.NumFiles newCfg.FileNumBytes,
      Event.configRecord newCfg])
  else
    (cfg, [])

/-- The `case replyTo := <-getConfigChan` branch of `logger.run`
(src/log/log.go): reply with `l.cfg.Clone()`. -/
def handleGetConfig (cfg : Config) : Config :=
  Config.Clone cfg

/-- Outcome of the caller-side `GetConfig` (src/log/interface.go): either the
replied `Config` value, or — when the 10-second bound elapses first — a panic
(the caller aborts; no error value is produced). -/
inductive GetConfigOutcome where
  | reply (c : Config)
  | fatalPanic
deriving DecidableEq, Repr

/-- Go `GetConfig` (src/log/interface.go): `select` between the reply channel
and `time.After(10 * time.Second)`.  The parameter records whether a reply
arrived within the bound, and which. -/
def GetConfig (replyWithinBound : Option Config) : GetConfigOutcome :=
  match replyWithinBound with
  | some c => GetConfigOutcome.reply c
  | none => GetConfigOutcome.fatalPanic

/-- Go semantics of `defer recover()` as written in `logIF` (src/log/log.go):
`recover` is deferred directly rather than called from inside a deferred
function, so by the Go specification (Handling panics: the return value of
`recover` is nil when recover was not called directly by a deferred function)
it returns nil and does not stop a panicking sequence. -/
def deferredBareRecoverStopsPanic : Bool := false

/-- Outcome of a caller-side `logIF` call (src/log/log.go). -/
inductive LogCallOutcome where
  | queued (q : List LogMsg)
  | returnedNormallyDropped (q : List LogMsg)
  | panicked
deriving DecidableEq, Repr

/-- Go `logIF` (src/log/log.go) on a live or closed `logChan`: on a live
channel the entry is appended; on a closed channel the send panics, and the
`defer recover()` stops that panic only if deferring `recover` bare does. -/
def logIF (closed : Bool) (q : List LogMsg) (m : LogMsg) : LogCallOutcome :=
  if closed then
    if deferredBareRecoverStopsPanic then
      LogCallOutcome.returnedNormallyDropped q
    else
      LogCallOutcome.panicked
  else
    LogCallOutcome.queued (q ++ [m])

/-- Go `exitMsg` (src/log/log.go). -/
structure ExitMsg where
  file : String
  line : Int
  exitCode : Int
  msg : String
deriving DecidableEq, Repr

/-- Go `logger.logExit` (src/log/log.go): writes unconditionally with the
`EXIT <code>` tag. -/
def logExit (em : ExitMsg) : WriteRec :=
  { priority := EXIT, fname := goPathSplitFile em.file, line := em.line,
    msg := em.msg, stackTrace := "" }

/-- Go `panicMsg` (src/log/log.go). -/
structure PanicMsg where
  file : String
  line : Int
  msg : String
  stacktrace : String
deriving DecidableEq, Repr

/-- The `case <-closeChan` branch of `logger.run`: the loop returns and the
deferred `l.close()` runs. -/
def handleCloseRequest (cfg : Config) (q : List LogMsg) : List Event :=
  loggerClose cfg q

/-- The `case msg := <-exitChan` branch of `logger.run`: `logExit`, then
`l.close()` (then `os.Exit`, outside the embedding). -/
def handleExitRequest (cfg : Config) (q : List LogMsg) (em : ExitMsg) :
    List Event :=
  Event.write (logExit em) :: loggerClose cfg q

/-- The `case msg := <-panicChan` branch of `logger.run`: `logMsg` with
priority `PANIC` and the captured stack trace, then `l.close()`. -/
def handlePanicRequest (cfg : Config) (q : List LogMsg) (pm : PanicMsg) :
    List Event :=
  (match logMsg cfg { file := pm.file, line := pm.line, priority := PANIC,
                      format := pm.msg } pm.stacktrace with
   | some w => [Event.write w]
   | none => []) ++ loggerClose cfg q

/-- Following the spec's words, for comparison with `isSuppressed`: membership
of the source file stem in the suppression set read as the set of
comma-separated components of `SuppressedFiles` (`config.suppressedFileStems`). -/
def specSuppressionMember (suppressedFiles stem : String) : Bool :=
  (goSplit suppressedFiles ',').contains stem

/-- Sample configuration: threshold `DEBUG`, suppression string of two stems. -/
def cfgDbgSup : Config :=
  { RootDir := "/usr/local/var/log", FileName := "app", NumFiles := 3,
    FileNumBytes := 1000000, Priority := DEBUG, SuppressedFiles := "pkga,pkgb" }

/-- Sample configuration: threshold `DEBUG`, nothing suppressed. -/
def cfgDbg : Config :=
  { RootDir := "/usr/local/var/log", FileName := "app", NumFiles := 3,
    FileNumBytes := 1000000, Priority := DEBUG, SuppressedFiles := "" }

/-- Sample entry from file `a.go` at priority `DEBUG`. -/
def msgA : LogMsg :=
  { file := "a.go", line := 5, priority := DEBUG, format := "m" }

/-- Sample entry from `main.go` at priority `DEBUG`. -/
def msgDbg : LogMsg :=
  { file := "main.go", line := 10, priority := DEBUG, format := "dbg" }

/-- Sample configurations differing only in `SuppressedFiles`. -/
def cfgSupA : Config :=
  { RootDir := "r", FileName := "f", NumFiles := 3, FileNumBytes := 1000000,
    Priority := INFO, SuppressedFiles := "" }

def cfgSupB : Config :=
  { RootDir := "r", FileName := "f", NumFiles := 3, FileNumBytes := 1000000,
    Priority := INFO, SuppressedFiles := "pkga" }

/-! Helper lemmas shared by several claims. -/

theorem flushLogMsgs_eq_filterMap (cfg : Config) (q : List LogMsg) :
    flushLogMsgs cfg q = q.filterMap (fun m => logMsg cfg m "") := by
  induction q with
  | nil => rfl
  | cons m q ih =>
      cases h : logMsg cfg m "" <;>
        simp [flushLogMsgs, h, ih, List.filterMap_cons]

/-! Claim C3 -/

/-- C3: `Config.Equal` is claimed to be full structural equality including
`SuppressedFiles`; evaluated at two configurations that differ only in
`SuppressedFiles`, it nevertheless returns `true` — contradicting both the
claim and the function's own doc comment ("true iff all fields are equal"). -/
theorem C3_equal_ignores_suppressedFiles :
    Config.Equal cfgSupA cfgSupB = true ∧
    cfgSupA.SuppressedFiles ≠ cfgSupB.SuppressedFiles ∧
    cfgSupA ≠ cfgSupB := by
  decide

/-! Claim C4 -/

/-- C4: the periodic re-read is claimed to adopt a freshly read configuration
whenever it differs in any field; evaluated at a fresh value differing from
the current one only in `SuppressedFiles`, the configurations differ but the
handler keeps the old value and performs no update (because `Config.Equal`
ignores `SuppressedFiles`, contradicting its doc comment). -/
theorem C4_refresh_ignores_suppressedFiles_change :
    cfgSupA ≠ cfgSupB ∧
    handleRefreshConfig cfgSupA cfgSupB = (cfgSupA, []) := by
  decide

/-! Claim C6 -/

/-- C6: the `getConfig` handler replies with `l.cfg.Clone()`, a fresh structure
built field by field and structurally equal to the current configuration; the
caller receives that value when a reply arrives within the bound, and the
elapse of the bound is a panic (an abort), not an error value. -/
theorem C6_getConfig_clone_and_timeout :
    ∀ cfg : Config,
      handleGetConfig cfg = Config.Clone cfg ∧
      Config.Clone cfg = cfg ∧
      GetConfig (some (handleGetConfig cfg)) = GetConfigOutcome.reply cfg ∧
      GetConfig none = GetConfigOutcome.fatalPanic := by
  intro cfg
  exact ⟨rfl, rfl, rfl, rfl⟩

/-! Claim C7 -/

/-- C7: after the logger closes `logChan`, a further log call does not return
normally with the entry dropped: the send on the closed channel panics and the
`defer recover()` in `logIF` (a bare deferral of `recover`) does not stop the
panic, so the calling thread panics.  The claim (silent drop, normal return)
describes the code's evident intent, not its behavior. -/
theorem C7_log_after_close_panics :
    logIF true [] msgDbg = LogCallOutcome.panicked ∧
    LogCallOutcome.panicked ≠ LogCallOutcome.returnedNormallyDropped [] ∧
    (∀ q m, logIF false q m = LogCallOutcome.queued (q ++ [m])) := by
  refine ⟨rfl, by decide, fun q m => rfl⟩

/-! Claim C2 -/

/-- The configuration after the three assignments the `setConfig` handler
performs: `NumFiles`, `FileNumBytes` and `Priority` replaced from the request,
the other fields kept. -/
def withConfigMsg (cfg : Config) (cm : ConfigMsg) : Config :=
  { cfg with NumFiles := cm.maxFiles, FileNumBytes := cm.maxBytes, Priority := cm.priority }

/-- C2 counterexample: with current threshold `DEBUG` and one queued `DEBUG`
entry, a `setConfig` request lowering the threshold to `INFO` produces no write
for the queued entry, although a flush under the old filtering rules would have
written it — the handler installs the new configuration before flushing, so
the queued entries are not flushed under the old rules as claimed. -/
theorem C2_counterexample :
    writesOf (handleSetConfig cfgDbg [msgDbg]
      { maxFiles := 3, maxBytes := 1000000, priority := INFO }).2 = [] ∧
    flushLogMsgs cfgDbg [msgDbg] ≠ [] := by
  decide

/-- C2 amended: the `setConfig` handler replaces `NumFiles`, `FileNumBytes`
and `Priority` first, then flushes the queued entries — in their original
order, but under the NEW configuration — then updates the FileSet thresholds
and finally logs the new configuration as a record. -/
theorem C2_amended_setConfig_flush (cfg : Config) (q : List LogMsg)
    (cm : ConfigMsg) :
    handleSetConfig cfg q cm =
      (withConfigMsg cfg cm,
       (q.filterMap (fun m => logMsg (withConfigMsg cfg cm) m "")).map Event.write ++
         [Event.fsSetConfig cm.maxFiles cm.maxBytes,
          Event.configRecord (withConfigMsg cfg cm)]) := by
  simp [handleSetConfig, withConfigMsg, flushLogMsgs_eq_filterMap]

/-! Claim C9 -/

/-- C9: on a close, exit or panic request the logger drains the queue
synchronously: each handler first writes its own record (exit: unconditional;
panic: filtered, with stack trace), then the queued entries are processed in
their original enqueue order under the configuration in effect when draining
starts (the configuration is not touched during the drain), and the FileSet
close request is the final event, after all queue writes. -/
theorem C9_drain_order_then_close (cfg : Config) (q : List LogMsg)
    (em : ExitMsg) (pm : PanicMsg) :
    handleCloseRequest cfg q =
      (q.filterMap (fun m => logMsg cfg m "")).map Event.write ++
        [Event.fsClose] ∧
    handleExitRequest cfg q em =
      Event.write (logExit em) ::
        ((q.filterMap (fun m => logMsg cfg m "")).map Event.write ++
          [Event.fsClose]) ∧
    handlePanicRequest cfg q pm =
      (match logMsg cfg { file := pm.file, line := pm.line, priority := PANIC,
                          format := pm.msg } pm.stacktrace with
       | some w => [Event.write w]
       | none => []) ++
        ((q.filterMap (fun m => logMsg cfg m "")).map Event.write ++
          [Event.fsClose]) := by
  refine ⟨?_, ?_, ?_⟩ <;>
    simp [handleCloseRequest, handleExitRequest, handlePanicRequest,
          loggerClose, flushLogMsgs_eq_filterMap]

/-! Claim C1 -/

/-- C1 counterexample: threshold `DEBUG`, suppression string `pkga,pkgb`, a
`DEBUG` entry from `a.go`.  The stem `a` is not a member of the suppression
set read as comma-separated components, and the priority passes the threshold
test, so the claim says the entry is written; the code drops it, because
`isSuppressed` tests substring containment (`strings.Contains`) and `a` occurs
inside `pkga,pkgb`. -/
theorem C1_counterexample :
    (msgA.priority ≤ cfgDbgSup.Priority) ∧
    msgA.priority = DEBUG ∧
    specSuppressionMember cfgDbgSup.SuppressedFiles
      (stemOf (goPathSplitFile msgA.file)) = false ∧
    logMsg cfgDbgSup msgA "" = none := by
  decide

/-- C1 amended: a dequeued entry is written iff its priority is at most the
configured threshold and it is not suppressed, where suppression means: the
priority is `DEBUG` (or numerically beyond), the suppression string is
nonempty, and the entry's source file stem occurs as a SUBSTRING of the
comma-separated suppression string (not: is a member of the stem set).  An
entry failing either test yields no record (`none`) — and no error, the
function being total. -/
theorem C1_amended_admission (cfg : Config) (m : LogMsg) (st : String) :
    (logMsg cfg m st).isSome = true ↔
      (m.priority ≤ cfg.Priority ∧
        ¬(DEBUG ≤ m.priority ∧ cfg.SuppressedFiles ≠ "" ∧
          goContains cfg.SuppressedFiles (stemOf (goPathSplitFile m.file)) = true)) := by
  unfold logMsg isSuppressed
  by_cases h1 : m.priority ≤ cfg.Priority <;>
  by_cases h2 : m.priority < DEBUG <;>
  by_cases h3 : cfg.SuppressedFiles = "" <;>
  cases h4 : goContains cfg.SuppressedFiles (stemOf (goPathSplitFile m.file)) <;>
    simp [h1, h2, h3, h4, not_lt.mp, not_lt]

/-! Claim C5 -/

/-- A parsed document supplying `NumFiles = 0`. -/
def jcZero : JsonConfig :=
  { RootDir := "", NumFiles := some 0, FileNumBytes := none, Priority := "",
    SuppressedFiles := "" }

/-- C5 counterexample: parsing a document with `NumFiles: 0` yields a `Config`
with `NumFiles = 0`, violating the claimed invariant `NumFiles ≥ 1`:
`jsonToConfig` copies supplied integers without validation. -/
theorem C5_counterexample :
    (jsonToConfig "app" jcZero).1.NumFiles = 0 ∧
    ¬(1 ≤ (jsonToConfig "app" jcZero).1.NumFiles) := by
  decide

/-- C5 amended: the defaults satisfy the bounds, and parsing and `setConfig`
preserve them exactly when the supplied integers satisfy them — neither
operation validates its inputs, so the invariant holds only conditionally. -/
theorem C5_amended_bounds :
    (∀ fn : String,
       1 ≤ (DefaultConfig fn).NumFiles ∧ 1 ≤ (DefaultConfig fn).FileNumBytes) ∧
    (∀ (fn : String) (jc : JsonConfig),
       (∀ n, jc.NumFiles = some n → 1 ≤ n) →
       (∀ b, jc.FileNumBytes = some b → 1 ≤ b) →
       1 ≤ (jsonToConfig fn jc).1.NumFiles ∧
       1 ≤ (jsonToConfig fn jc).1.FileNumBytes) ∧
    (∀ (cfg : Config) (q : List LogMsg) (cm : ConfigMsg),
       1 ≤ cm.maxFiles → 1 ≤ cm.maxBytes →
       1 ≤ (handleSetConfig cfg q cm).1.NumFiles ∧
       1 ≤ (handleSetConfig cfg q cm).1.FileNumBytes) := by
  refine ⟨fun fn => ⟨by norm_num [DefaultConfig, DefaultNumFiles],
                     by norm_num [DefaultConfig, DefaultLogFileNumBytes]⟩, ?_, ?_⟩
  · intro fn jc h1 h2
    constructor
    · cases hn : jc.NumFiles with
      | none => simp [jsonToConfig, hn, DefaultNumFiles]
      | some n => simp [jsonToConfig, hn]; exact h1 n hn
    · cases hb : jc.FileNumBytes with
      | none => simp [jsonToConfig, hb, DefaultLogFileNumBytes]
      | some b => simp [jsonToConfig, hb]; exact h2 b hb
  · intro cfg q cm h1 h2
    exact ⟨h1, h2⟩

/-- A parsed document with valid bounds, for the witness. -/
def jcOk : JsonConfig :=
  { RootDir := "", NumFiles := some 2, FileNumBytes := some 5, Priority := "",
    SuppressedFiles := "" }

theorem C5_amended_bounds_witness :
    1 ≤ (jsonToConfig "app" jcOk).1.NumFiles ∧
    1 ≤ (jsonToConfig "app" jcOk).1.FileNumBytes := by
  exact C5_amended_bounds.2.1 "app" jcOk
    (fun n hn => by simp [jcOk] at hn; omega)
    (fun b hb => by simp [jcOk] at hb; omega)

/-! Claim C8 -/

/-- A parsed document in which the individual field `NumFiles` is absent. -/
def jcNoNum : JsonConfig :=
  { RootDir := "r", NumFiles := none, FileNumBytes := some 7,
    Priority := "DEBUG", SuppressedFiles := "" }

/-- C8 counterexample: a document with a missing individual field (`NumFiles`)
is recovered by substituting the documented default, but NO diagnostic is
emitted — the claim asserts a stderr diagnostic for a missing individual field
as well. -/
theorem C8_counterexample :
    (jsonToConfig "app" jcNoNum).1.NumFiles = DefaultNumFiles ∧
    (jsonToConfig "app" jcNoNum).2 = [] := by
  decide

/-- C8 amended: every failure of the configuration source is recovered locally
by substituting the documented defaults and never surfaces as an error; a
stderr diagnostic accompanies a missing document, a malformed document, an
unreadable document on the initial read only, and an invalid `priority` field —
while missing individual fields are defaulted silently. -/
theorem C8_amended_defaults :
    (∀ fn : String, DefaultConfig fn =
       { RootDir := "/usr/local/var/log", FileName := fn, NumFiles := 3,
         FileNumBytes := 1000000, Priority := INFO, SuppressedFiles := "" }) ∧
    (∀ (fn : String) (warn : Bool),
       readConfigFile fn warn ConfigSource.missing =
         (DefaultConfig fn, ["No logging config file found. Using defaults"])) ∧
    (∀ (fn e : String),
       readConfigFile fn true (ConfigSource.unreadable e) =
         (DefaultConfig fn, [String.append "Warning reading config: " e]) ∧
       readConfigFile fn false (ConfigSource.unreadable e) =
         (DefaultConfig fn, [])) ∧
    (∀ (fn : String) (warn : Bool) (e : String),
       readConfigFile fn warn (ConfigSource.malformed e) =
         (DefaultConfig fn, [String.append "Error parsing config: " e])) ∧
    (∀ (fn : String) (warn : Bool) (jc : JsonConfig),
       readConfigFile fn warn (ConfigSource.parsed jc) = jsonToConfig fn jc ∧
       (jc.RootDir = "" → (jsonToConfig fn jc).1.RootDir = DefaultLogRootDir) ∧
       (jc.NumFiles = none → (jsonToConfig fn jc).1.NumFiles = DefaultNumFiles) ∧
       (jc.FileNumBytes = none →
          (jsonToConfig fn jc).1.FileNumBytes = DefaultLogFileNumBytes) ∧
       (jc.Priority = "" →
          (jsonToConfig fn jc).1.Priority = DefaultPriority ∧
          (jsonToConfig fn jc).2 = []) ∧
       ((ToPriority jc.Priority).2 ≠ none → jc.Priority ≠ "" →
          (jsonToConfig fn jc).1.Priority = DefaultPriority ∧
          (jsonToConfig fn jc).2 ≠ [])) := by
  refine ⟨fun fn => rfl, fun fn warn => rfl, fun fn e => ⟨rfl, rfl⟩,
          fun fn warn e => rfl, ?_⟩
  intro fn warn jc
  refine ⟨rfl, fun h => by simp [jsonToConfig, h], fun h => by simp [jsonToConfig, h],
          fun h => by simp [jsonToConfig, h], fun h => by simp [jsonToConfig, h], ?_⟩
  intro hne hnempty
  rcases hp : ToPriority jc.Priority with ⟨p, e⟩
  rw [hp] at hne
  cases e with
  | none => simp at hne
  | some msg =>
      exact ⟨by simp [jsonToConfig, hnempty, hp],
             by simp [jsonToConfig, hnempty, hp]⟩

/-- A parsed document with an invalid `priority` field, for the witness. -/
def jcInvalidPriority : JsonConfig :=
  { RootDir := "", NumFiles := none, FileNumBytes := none,
    Priority := "VERBOSE", SuppressedFiles := "x" }

theorem C8_amended_defaults_witness :
    readConfigFile "app" true ConfigSource.missing =
      (DefaultConfig "app", ["No logging config file found. Using defaults"]) ∧
    (jsonToConfig "app" jcInvalidPriority).1.Priority = DefaultPriority ∧
    (jsonToConfig "app" jcInvalidPriority).2 ≠ [] := by
  refine ⟨C8_amended_defaults.2.1 "app" true, ?_, ?_⟩
  · exact ((C8_amended_defaults.2.2.2.2 "app" true jcInvalidPriority).2.2.2.2.2
      (by decide) (by decide)).1
  · exact ((C8_amended_defaults.2.2.2.2 "app" true jcInvalidPriority).2.2.2.2.2
      (by decide) (by decide)).2

/-! Claim C10 -/

/-- C10: for each of the five declared priorities, `ToPriority` maps the
`String()` name back to the priority with a nil error; the result of
`ToPriority` is determined by the uppercased input, so every capitalization of
a valid name yields that priority and a nil error; and every string whose
uppercasing is not one of the five names yields a non-nil error. -/
theorem C10_toPriority_roundtrip :
    (∀ p : Priority, p ∈ [EXIT, PANIC, WARNING, INFO, DEBUG] →
       ∃ s, priorityString p = some s ∧ ToPriority s = (p, none)) ∧
    (∀ s : String, goToUpper s ∈ ["EXIT", "PANIC", "WARNING", "INFO", "DEBUG"] →
       (ToPriority s).2 = none ∧
       priorityString (ToPriority s).1 = some (goToUpper s)) ∧
    (∀ s : String, goToUpper s ∉ ["EXIT", "PANIC", "WARNING", "INFO", "DEBUG"] →
       (ToPriority s).2 ≠ none) := by
  refine ⟨?_, ?_, ?_⟩
  · intro p hp
    fin_cases hp
    · exact ⟨"EXIT", by decide, by decide⟩
    · exact ⟨"PANIC", by decide, by decide⟩
    · exact ⟨"WARNING", by decide, by decide⟩
    · exact ⟨"INFO", by decide, by decide⟩
    · exact ⟨"DEBUG", by decide, by decide⟩
  · intro s h
    simp only [List.mem_cons, List.not_mem_nil, or_false] at h
    rcases h with h|h|h|h|h <;>
      simp [ToPriority, priorityString, h, EXIT, PANIC, WARNING, INFO, DEBUG]
  · intro s h
    simp only [List.mem_cons, List.not_mem_nil, or_false, not_or] at h
    obtain ⟨h1, h2, h3, h4, h5⟩ := h
    simp [ToPriority, h1, h2, h3, h4, h5]

theorem C10_toPriority_roundtrip_witness :
    (∃ s, priorityString INFO = some s ∧ ToPriority s = (INFO, none)) ∧
    ((ToPriority "Info").2 = none ∧
      priorityString (ToPriority "Info").1 = some (goToUpper "Info")) ∧
    (ToPriority "VERBOSE").2 ≠ none := by
  exact ⟨C10_toPriority_roundtrip.1 INFO (by decide),
         C10_toPriority_roundtrip.2.1 "Info" (by decide),
         C10_toPriority_roundtrip.2.2 "VERBOSE" (by decide)⟩
